import Mathlib

/-!
# Verification of the balancebeam reverse proxy core

Shallow embedding of `src/proj-2/balancebeam/src/main.rs`: the sliding-window
rate limiter, the health-check cycle, the upstream pool mutators, the
failover logic of `connect_to_upstream`, and the request-error dispatch of
`handle_connection`.  Time is modelled in seconds as `Nat`; addresses as
`String`.  The concurrent code is modelled sequentially (one interleaving),
which is the granularity at which the claims speak.
-/

namespace Balancebeam

/-! ## Rate limiter (handle_connection, lines 296-328)

The per-client state is a queue of request timestamps, oldest first
(`VecDeque<Instant>`).  On each request the code pops leading timestamps
strictly older than 60 seconds, then rejects (without recording) when the
remaining count has reached `max_requests_per_minute`, else records `now`
and admits. -/

/-- The prune loop: `while let Some(ts) = entry.front() { if now - ts > 60 { pop } else break }`.
Drops only *leading* timestamps strictly older than `now - 60`. -/
def pruneWindow (now : Nat) : List Nat → List Nat
  | [] => []
  | t :: rest => if 60 < now - t then pruneWindow now rest else t :: rest

/-- The decide-and-record step for an enabled limiter (`max_requests_per_minute ≠ 0`):
reject without recording when `entry.len() >= limit`, else push `now` and admit.
Returns `(admitted?, new queue)`. -/
def rateLimitAdmit (limit now : Nat) (q : List Nat) : Bool × List Nat :=
  let q' := pruneWindow now q
  if limit ≤ q'.length then (false, q') else (true, q' ++ [now])

/-- The whole rate-limiting block: skipped entirely when
`state.max_requests_per_minute == 0`. -/
def rateLimitCheck (limit now : Nat) (q : List Nat) : Bool × List Nat :=
  if limit = 0 then (true, q) else rateLimitAdmit limit now q

/-- Run the limiter over a sequence of request times from one client,
threading the queue; returns the list of per-request decisions and the final
queue. -/
def processRequests (limit : Nat) : List Nat → List Nat → List Bool × List Nat
  | q, [] => ([], q)
  | q, t :: ts =>
    let r := rateLimitCheck limit t q
    let rest := processRequests limit r.2 ts
    (r.1 :: rest.1, rest.2)

/-- On a rejected request the handler answers 429 (TOO_MANY_REQUESTS) and
continues the loop; on an admitted request it sends nothing of its own
(lines 323-327). -/
def rateLimitResponse (admitted : Bool) : Option Nat :=
  if admitted then none else some 429

/-! ## Upstream pool mutators (lines 172-197)

The pool (`active_upstream_addresses: Vec<String>`) is modelled as a
`List String`.  The random index produced by `gen_range(0..len)` is modelled
by an oracle `pick : Nat → Nat` (one value per draw) reduced into range by
`% len`; `gen_range` over the empty range `0..0` panics. -/

/-- `read_upstream_addresses` (lines 172-178): draw a random index into the
current pool and return it with the address there.  `gen_range(0..len)`
panics (`none`) when the pool is empty — there is no emptiness guard. -/
def readUpstreamAddresses (pool : List String) (draw : Nat) :
    Option (Nat × String) :=
  if h : pool.length = 0 then none
  else
    let idx := draw % pool.length
    some (idx, pool.get ⟨idx, Nat.mod_lt _ (by omega)⟩)

/-- `delete_upstream_address` (lines 180-189): remove the entry at `idx` when
the index is still in bounds, else no-op. -/
def deleteUpstreamAddress (pool : List String) (idx : Nat) : List String :=
  if idx < pool.length then pool.eraseIdx idx else pool

/-- `add_upstream_address` (lines 191-197): push the address unless already
present (idempotent re-add). -/
def addUpstreamAddress (pool : List String) (ip : String) : List String :=
  if ip ∈ pool then pool else pool ++ [ip]

/-! ## connect_to_upstream (lines 199-225)

One sequential interleaving: the pool is read and written only by this call.
`canConnect` is the connectivity oracle (`TcpStream::connect` succeeds or
fails per address); `pick` feeds the two possible random draws of one loop
body.  `fuel` bounds the number of loop iterations we unfold; the code
itself loops without bound. -/

/-- What a `connect_to_upstream` run did within the given fuel. -/
inductive ConnectOutcome where
  /-- Fuel ran out with the loop still going (every observed pool was empty:
  the code slept 3 s and retried). -/
  | stillLooping
  /-- `gen_range(0..0)` panicked: the second snapshot was empty. -/
  | panicked
  /-- `Ok(stream)` to the given address. -/
  | conn (addr : String)
  /-- `Err` surfaced by `?` after the failover attempt also failed. -/
  | connErr
  deriving DecidableEq, Repr

/-- Full account of a `connect_to_upstream` run: its outcome, the pool it
leaves behind, the addresses it attempted to connect to (in order), and the
number of 3-second backoff sleeps it performed. -/
structure ConnectTrace where
  outcome : ConnectOutcome
  pool : List String
  attempts : List String
  sleeps : Nat
  deriving DecidableEq, Repr

/-- The loop of `connect_to_upstream`.  Per iteration: if the pool is empty,
sleep 3 s and retry; otherwise draw an address, try it, on failure demote it
by index, draw again from a fresh snapshot (panicking if that snapshot is
empty), defensively re-add the drawn address, try it once, and return that
attempt's result (`?` propagates its error). -/
def connectLoop (canConnect : String → Bool) (pick : Nat → Nat) :
    Nat → List String → Nat → ConnectTrace
  | 0, pool, sleeps => ⟨.stillLooping, pool, [], sleeps⟩
  | fuel + 1, pool, sleeps =>
    if h : pool.length = 0 then
      connectLoop canConnect pick fuel pool (sleeps + 1)
    else
      let idx₁ := pick 0 % pool.length
      let a₁ := pool.get ⟨idx₁, Nat.mod_lt _ (by omega)⟩
      if canConnect a₁ then ⟨.conn a₁, pool, [a₁], sleeps⟩
      else
        let pool₁ := deleteUpstreamAddress pool idx₁
        match readUpstreamAddresses pool₁ (pick 1) with
        | none => ⟨.panicked, pool₁, [a₁], sleeps⟩
        | some (_, a₂) =>
          let pool₂ := addUpstreamAddress pool₁ a₂
          if canConnect a₂ then ⟨.conn a₂, pool₂, [a₁, a₂], sleeps⟩
          else ⟨.connErr, pool₂, [a₁, a₂], sleeps⟩

/-- `connect_to_upstream` entered with a fresh (zero-sleep) trace. -/
def connectToUpstream (canConnect : String → Bool) (pick : Nat → Nat)
    (fuel : Nat) (pool : List String) : ConnectTrace :=
  connectLoop canConnect pick fuel pool 0

/-- The fixed backoff `sleep(Duration::from_secs(3))` (line 203). -/
def backoffSecs : Nat := 3

/-- `handle_connection` lines 246-256: the proxy answers the client with 502
(BAD_GATEWAY) exactly when `connect_to_upstream` returns `Err`; when the
call never returns, nothing is sent. -/
def upstreamEstablishResponse : ConnectOutcome → Option Nat
  | .connErr => some 502
  | _ => none

/-! ## Health check (lines 115-170)

Per cycle the checker grabs the write lock, clears the pool, then walks the
full configured list.  Per address: `TcpStream::connect` may fail (skip,
`continue`); `request::write_to_stream` may fail (the code does `return;`,
ending `health_check` itself); the response may parse to a status (push the
address iff it is 200) or fail to parse (skip). -/

/-- Outcome of probing one address. -/
inductive ProbeOutcome where
  /-- `TcpStream::connect` failed. -/
  | connectFail
  /-- Connected but `request::write_to_stream` failed. -/
  | writeFail
  /-- A response parsed with this status code. -/
  | response (status : Nat)
  /-- `response::read_from_stream` failed. -/
  | parseFail
  deriving DecidableEq, Repr

/-- Walk the remaining configured addresses, accumulating the candidate
healthy list.  Returns the pool contents at exit and whether the sweep ran
to completion (`false` = the `return;` on a write failure fired, killing the
checker). -/
def healthSweep (probe : String → ProbeOutcome) :
    List String → List String → List String × Bool
  | acc, [] => (acc, true)
  | acc, a :: rest =>
    match probe a with
    | .connectFail => healthSweep probe acc rest
    | .writeFail => (acc, false)
    | .response s =>
        if s = 200 then healthSweep probe (acc ++ [a]) rest
        else healthSweep probe acc rest
    | .parseFail => healthSweep probe acc rest

/-- One health-check cycle over the pool: clear it (line 123), then sweep the
configured list.  The old pool contents are discarded wholesale. -/
def healthCheckCycle (configured : List String) (probe : String → ProbeOutcome)
    (_oldPool : List String) : List String × Bool :=
  healthSweep probe [] configured

/-- `main` lines 94-104: the health-check task is spawned iff the configured
health-check path is non-empty.  The interval plays no part in the decision. -/
def healthCheckerStarted (path : String) : Bool :=
  !path.isEmpty

/-- One iteration of the `health_check` loop (lines 116-169): sleep
`active_health_check_interval` seconds, then run a full cycle.  Returns the
seconds slept, the new pool, and whether the checker survived the cycle. -/
def healthCheckerIteration (interval : Nat) (configured : List String)
    (probe : String → ProbeOutcome) (oldPool : List String) :
    Nat × List String × Bool :=
  (interval, healthCheckCycle configured probe oldPool)

/-! ## handle_connection request-error dispatch (lines 263-288) -/

/-- `request::Error` as matched in `handle_connection`. -/
inductive RequestError where
  | incompleteRequest (n : Nat)
  | malformedRequest (msg : String)
  | invalidContentLength
  | contentLengthMismatch
  | requestBodyTooLarge
  | connectionError (msg : String)
  deriving DecidableEq, Repr

/-- The status the catch-all arm (lines 277-284) would map an error to. -/
def requestErrorStatus : RequestError → Nat
  | .incompleteRequest _ => 400
  | .malformedRequest _ => 400
  | .invalidContentLength => 400
  | .contentLengthMismatch => 400
  | .requestBodyTooLarge => 413
  | .connectionError _ => 503

/-- What the handler does with a failed `request::read_from_stream`. -/
inductive ReadErrorAction where
  /-- `return` with nothing sent (clean EOF or client connection error). -/
  | closeSilently
  /-- Send this status to the client and `continue` the loop. -/
  | respondAndContinue (status : Nat)
  deriving DecidableEq, Repr

/-- The match of lines 263-288 in source order: `IncompleteRequest(0)` and
`ConnectionError(_)` return silently before the catch-all arm builds an
error response via `requestErrorStatus`. -/
def handleReadError : RequestError → ReadErrorAction
  | .incompleteRequest 0 => .closeSilently
  | .connectionError _ => .closeSilently
  | e => .respondAndContinue (requestErrorStatus e)

/-! ## Lemmas about the rate limiter -/

lemma pruneWindow_eq_self (now : Nat) (q : List Nat)
    (h : ∀ t ∈ q, now - t ≤ 60) : pruneWindow now q = q := by
  cases q with
  | nil => rfl
  | cons t rest =>
    have ht := h t (List.mem_cons_self t rest)
    simp only [pruneWindow]
    rw [if_neg (by omega)]

lemma pruneWindow_eq_nil (now : Nat) (q : List Nat)
    (h : ∀ t ∈ q, 60 < now - t) : pruneWindow now q = [] := by
  induction q with
  | nil => rfl
  | cons t rest ih =>
    have ht := h t (List.mem_cons_self t rest)
    simp only [pruneWindow]
    rw [if_pos ht]
    exact ih fun t' ht' => h t' (List.mem_cons_of_mem _ ht')

/-- While all request times sit within one 60-second window starting at `b`
and the queue holds only times `≥ b`, no pruning ever fires, so the limiter
admits exactly until the queue reaches `limit` and then rejects, recording
only the admitted times. -/
lemma processRequests_within_window (limit b : Nat) (hl : 0 < limit) :
    ∀ ts q : List Nat, (∀ t ∈ q, b ≤ t) → (∀ t ∈ ts, b ≤ t ∧ t ≤ b + 60) →
      processRequests limit q ts =
        (List.replicate (min ts.length (limit - q.length)) true ++
           List.replicate (ts.length - (limit - q.length)) false,
         q ++ ts.take (limit - q.length)) := by
  intro ts
  induction ts with
  | nil => intro q _ _; simp [processRequests]
  | cons t ts ih =>
    intro q hq hts
    have hbt := hts t (List.mem_cons_self t ts)
    have hprune : pruneWindow t q = q :=
      pruneWindow_eq_self t q fun t0 ht0 => by have := hq t0 ht0; omega
    rcases Nat.lt_or_ge q.length limit with hlt | hge
    · have hr : rateLimitCheck limit t q = (true, q ++ [t]) := by
        simp only [rateLimitCheck, rateLimitAdmit, hprune]
        rw [if_neg (by omega : ¬limit = 0), if_neg (by omega : ¬limit ≤ q.length)]
      have hq' : ∀ t0 ∈ q ++ [t], b ≤ t0 := by
        intro t0 ht0
        rcases List.mem_append.mp ht0 with h | h
        · exact hq t0 h
        · have : t0 = t := by simpa using h
          omega
      have hrec := ih (q ++ [t]) hq' fun t' ht' => hts t' (List.mem_cons_of_mem _ ht')
      simp only [processRequests, hr, hrec]
      have hmin : min (ts.length + 1) (limit - q.length) =
          min ts.length (limit - (q ++ [t]).length) + 1 := by
        simp only [List.length_append, List.length_cons, List.length_nil]
        omega
      have hsub : ts.length + 1 - (limit - q.length) =
          ts.length - (limit - (q ++ [t]).length) := by
        simp only [List.length_append, List.length_cons, List.length_nil]
        omega
      have htake : limit - q.length = (limit - (q ++ [t]).length) + 1 := by
        simp only [List.length_append, List.length_cons, List.length_nil]
        omega
      refine Prod.ext ?_ ?_
      · simp only [List.length_cons, hmin, hsub, List.replicate_succ, List.cons_append]
      · simp only [htake, List.take_succ_cons, List.append_assoc, List.singleton_append]
    · have hr : rateLimitCheck limit t q = (false, q) := by
        simp only [rateLimitCheck, rateLimitAdmit, hprune]
        rw [if_neg (by omega : ¬limit = 0), if_pos (by omega : limit ≤ q.length)]
      have hrec := ih q hq fun t' ht' => hts t' (List.mem_cons_of_mem _ ht')
      simp only [processRequests, hr, hrec]
      have hz : limit - q.length = 0 := by omega
      refine Prod.ext ?_ ?_
      · simp [hz, List.replicate_succ]
      · simp [hz]

/-! ## Lemmas about connect_to_upstream -/

/-- With an empty pool every iteration takes the sleep-and-retry branch:
the loop makes no attempt and never returns, accruing one backoff per
iteration. -/
lemma connectLoop_empty_pool (canConnect : String → Bool) (pick : Nat → Nat) :
    ∀ fuel sleeps : Nat,
      connectLoop canConnect pick fuel [] sleeps =
        ⟨.stillLooping, [], [], sleeps + fuel⟩ := by
  intro fuel
  induction fuel with
  | zero => intro sleeps; rfl
  | succ n ih =>
    intro sleeps
    have h0 : ([] : List String).length = 0 := rfl
    simp only [connectLoop]
    rw [dif_pos h0, ih (sleeps + 1)]
    congr 1
    omega

/-- The pool `connect_to_upstream` leaves behind is a subset of the pool it
started from: it only ever erases an entry and re-adds an entry drawn from
the erased pool. -/
lemma connectLoop_pool_subset (canConnect : String → Bool) (pick : Nat → Nat) :
    ∀ (fuel : Nat) (pool : List String) (sleeps : Nat),
      (connectLoop canConnect pick fuel pool sleeps).pool ⊆ pool := by
  intro fuel
  induction fuel with
  | zero => intro pool sleeps; exact List.Subset.refl pool
  | succ n ih =>
    intro pool sleeps
    simp only [connectLoop]
    by_cases h : pool.length = 0
    · rw [dif_pos h]
      exact ih pool (sleeps + 1)
    · rw [dif_neg h]
      have hdel : deleteUpstreamAddress pool (pick 0 % pool.length) ⊆ pool := by
        unfold deleteUpstreamAddress
        by_cases hi : pick 0 % pool.length < pool.length
        · rw [if_pos hi]; exact List.eraseIdx_subset pool _
        · rw [if_neg hi]; exact List.Subset.refl pool
      by_cases h₁ : canConnect (pool.get ⟨pick 0 % pool.length, Nat.mod_lt _ (by omega)⟩) = true
      · rw [if_pos h₁]
        exact List.Subset.refl pool
      · rw [if_neg h₁]
        cases hr : readUpstreamAddresses
            (deleteUpstreamAddress pool (pick 0 % pool.length)) (pick 1) with
        | none => exact hdel
        | some v =>
          obtain ⟨idx₂, a₂⟩ := v
          have ha₂ : a₂ ∈ deleteUpstreamAddress pool (pick 0 % pool.length) := by
            unfold readUpstreamAddresses at hr
            by_cases hz : (deleteUpstreamAddress pool (pick 0 % pool.length)).length = 0
            · rw [dif_pos hz] at hr; exact absurd hr (by simp)
            · rw [dif_neg hz] at hr
              simp only [Option.some.injEq, Prod.mk.injEq] at hr
              rw [← hr.2]
              exact List.get_mem _ _ _
          have hadd : addUpstreamAddress
              (deleteUpstreamAddress pool (pick 0 % pool.length)) a₂ =
              deleteUpstreamAddress pool (pick 0 % pool.length) := by
            unfold addUpstreamAddress
            rw [if_pos ha₂]
          dsimp only
          split
          · rw [hadd]; exact hdel
          · rw [hadd]; exact hdel

/-! ## Lemmas about the health-check sweep -/

/-- A sweep that runs to completion accumulates exactly the probed addresses
whose response status was 200, in configured order, after the already
accumulated prefix. -/
lemma healthSweep_completed (probe : String → ProbeOutcome) :
    ∀ rest acc : List String,
      (healthSweep probe acc rest).2 = true →
      (healthSweep probe acc rest).1 =
        acc ++ rest.filter fun a => decide (probe a = .response 200) := by
  intro rest
  induction rest with
  | nil => intro acc _; simp [healthSweep]
  | cons a rest ih =>
    intro acc hc
    cases hp : probe a with
    | connectFail =>
      have hstep : healthSweep probe acc (a :: rest) =
          healthSweep probe acc rest := by
        simp only [healthSweep, hp]
      rw [hstep] at hc ⊢
      rw [ih acc hc]
      simp [List.filter_cons, hp]
    | writeFail =>
      exfalso
      have hstep : healthSweep probe acc (a :: rest) = (acc, false) := by
        simp only [healthSweep, hp]
      rw [hstep] at hc
      simp at hc
    | response s =>
      by_cases hs : s = 200
      · subst hs
        have hstep : healthSweep probe acc (a :: rest) =
            healthSweep probe (acc ++ [a]) rest := by
          simp only [healthSweep, hp]
          rw [if_pos trivial]
        rw [hstep] at hc ⊢
        rw [ih _ hc]
        simp [List.filter_cons, hp]
      · have hstep : healthSweep probe acc (a :: rest) =
            healthSweep probe acc rest := by
          simp only [healthSweep, hp]
          rw [if_neg hs]
        rw [hstep] at hc ⊢
        rw [ih acc hc]
        simp [List.filter_cons, hp, hs]
    | parseFail =>
      have hstep : healthSweep probe acc (a :: rest) =
          healthSweep probe acc rest := by
        simp only [healthSweep, hp]
      rw [hstep] at hc ⊢
      rw [ih acc hc]
      simp [List.filter_cons, hp]

/-- Whatever the probe outcomes (including a checker-killing write failure),
the pool a sweep leaves behind only holds addresses from the accumulator or
the swept list. -/
lemma healthSweep_subset (probe : String → ProbeOutcome) :
    ∀ rest acc : List String, ∀ x ∈ (healthSweep probe acc rest).1,
      x ∈ acc ∨ x ∈ rest := by
  intro rest
  induction rest with
  | nil =>
    intro acc x hx
    left
    simpa [healthSweep] using hx
  | cons a rest ih =>
    intro acc x hx
    cases hp : probe a with
    | connectFail =>
      rw [show healthSweep probe acc (a :: rest) = healthSweep probe acc rest
        from by simp only [healthSweep, hp]] at hx
      rcases ih acc x hx with h | h
      · exact Or.inl h
      · exact Or.inr (List.mem_cons_of_mem a h)
    | writeFail =>
      rw [show healthSweep probe acc (a :: rest) = (acc, false)
        from by simp only [healthSweep, hp]] at hx
      exact Or.inl hx
    | response s =>
      by_cases hs : s = 200
      · subst hs
        rw [show healthSweep probe acc (a :: rest) =
            healthSweep probe (acc ++ [a]) rest
          from by simp only [healthSweep, hp]; rw [if_pos trivial]] at hx
        rcases ih (acc ++ [a]) x hx with h | h
        · rcases List.mem_append.mp h with h' | h'
          · exact Or.inl h'
          · right
            have : x = a := by simpa using h'
            simp [this]
        · exact Or.inr (List.mem_cons_of_mem a h)
      · rw [show healthSweep probe acc (a :: rest) = healthSweep probe acc rest
          from by simp only [healthSweep, hp]; rw [if_neg hs]] at hx
        rcases ih acc x hx with h | h
        · exact Or.inl h
        · exact Or.inr (List.mem_cons_of_mem a h)
    | parseFail =>
      rw [show healthSweep probe acc (a :: rest) = healthSweep probe acc rest
        from by simp only [healthSweep, hp]] at hx
      rcases ih acc x hx with h | h
      · exact Or.inl h
      · exact Or.inr (List.mem_cons_of_mem a h)

/-! ## Claim theorems -/

/-- **C1**: with a configured limit `N > 0` and `M > N` requests from one
client all within a 60-second window, the limiter admits exactly the first
`N` and rejects the remaining `M − N`, answering each rejection with 429 and
recording only the admitted timestamps; once more than 60 seconds separate
the next request from every recorded timestamp (which holds as soon as 60
seconds elapse after the last request), that request is admitted again with
a fully drained window. -/
theorem rateLimiter_sliding_window (limit b tnext : Nat) (ts : List Nat)
    (hl : 0 < limit) (hM : limit < ts.length)
    (hwin : ∀ t ∈ ts, b ≤ t ∧ t ≤ b + 60)
    (hsorted : ts.Pairwise (· < ·))
    (hne : ts ≠ [])
    (hnext : ts.getLast hne + 60 ≤ tnext) :
    (processRequests limit [] ts).1 =
        List.replicate limit true ++ List.replicate (ts.length - limit) false ∧
      (processRequests limit [] ts).1.map rateLimitResponse =
        List.replicate limit none ++
          List.replicate (ts.length - limit) (some 429) ∧
      (processRequests limit [] ts).2 = ts.take limit ∧
      rateLimitCheck limit tnext (processRequests limit [] ts).2 =
        (true, [tnext]) := by
  have hrun := processRequests_within_window limit b hl ts [] (by simp) hwin
  have hmin : min ts.length (limit - ([] : List Nat).length) = limit := by
    simp only [List.length_nil, Nat.sub_zero]
    omega
  have hfst : (processRequests limit [] ts).1 =
      List.replicate limit true ++ List.replicate (ts.length - limit) false := by
    rw [hrun]
    simp only [List.length_nil, Nat.sub_zero] at hmin ⊢
    rw [hmin]
  have hsnd : (processRequests limit [] ts).2 = ts.take limit := by
    rw [hrun]
    simp only [List.length_nil, Nat.sub_zero, List.nil_append]
  have hdrain : rateLimitCheck limit tnext (ts.take limit) = (true, [tnext]) := by
    have hold : ∀ t0 ∈ ts.take limit, 60 < tnext - t0 := by
      intro t0 ht0
      rw [List.mem_take_iff_getElem] at ht0
      obtain ⟨i, hi, hvi⟩ := ht0
      have hin : i < ts.length := by omega
      have hil : i < ts.length - 1 := by omega
      have hlast := ts.getLast_eq_getElem hne
      have hlt : ts[i] < ts[ts.length - 1] :=
        List.pairwise_iff_getElem.mp hsorted i (ts.length - 1) hin (by omega) hil
      rw [hlast] at hnext
      omega
    have hpr := pruneWindow_eq_nil tnext (ts.take limit) hold
    simp only [rateLimitCheck, rateLimitAdmit, hpr, List.length_nil,
      List.nil_append]
    rw [if_neg (by omega : ¬limit = 0), if_neg (by omega : ¬limit ≤ 0)]
  refine ⟨hfst, ?_, hsnd, by rw [hsnd]; exact hdrain⟩
  rw [hfst]
  simp [rateLimitResponse]

/-- Witness for C1 at `limit = 1`, requests at times `0` and `1`, and a
follow-up request at time `61`. -/
theorem rateLimiter_sliding_window_witness :
    (processRequests 1 [] [0, 1]).1 =
        List.replicate 1 true ++ List.replicate (([0, 1] : List Nat).length - 1) false ∧
      (processRequests 1 [] [0, 1]).1.map rateLimitResponse =
        List.replicate 1 none ++
          List.replicate (([0, 1] : List Nat).length - 1) (some 429) ∧
      (processRequests 1 [] [0, 1]).2 = ([0, 1] : List Nat).take 1 ∧
      rateLimitCheck 1 61 (processRequests 1 [] [0, 1]).2 = (true, [61]) :=
  rateLimiter_sliding_window 1 0 61 [0, 1] (by decide) (by decide)
    (by decide) (by decide) (by decide) (by decide)

/-- **C6**: whenever `connect_to_upstream` sees an empty healthy pool at the
top of its loop it sleeps the fixed 3-second backoff and retries; while the
pool stays empty it never returns (no connection, no error, no attempt),
performing one backoff per iteration, however much fuel the loop is given. -/
theorem connectToUpstream_blocks_while_pool_empty (canConnect : String → Bool)
    (pick : Nat → Nat) (fuel : Nat) :
    connectToUpstream canConnect pick fuel [] =
        ⟨.stillLooping, [], [], fuel⟩ ∧
      backoffSecs = 3 := by
  constructor
  · have h := connectLoop_empty_pool canConnect pick fuel 0
    simpa [connectToUpstream] using h
  · rfl

/-- **C5** (counterexample): with zero healthy upstreams, even after 100
loop iterations `connect_to_upstream` has not returned — in particular it
has not surfaced the connection error that is the only trigger for the 502
response, so the client has been sent nothing.  The claimed
"502 after the acquire call's backoff-retries are exhausted" never happens:
there is no retry budget to exhaust. -/
theorem connect_empty_pool_no_502_counterexample :
    (connectToUpstream (fun _ => false) (fun _ => 0) 100 []).outcome =
        ConnectOutcome.stillLooping ∧
      (connectToUpstream (fun _ => false) (fun _ => 0) 100 []).outcome ≠
        ConnectOutcome.connErr ∧
      upstreamEstablishResponse
        (connectToUpstream (fun _ => false) (fun _ => 0) 100 []).outcome ≠
        some 502 := by
  decide

/-- **C5** (amended): when zero upstreams are healthy,
`connect_to_upstream` sleeps the 3-second backoff and retries indefinitely,
never returning; the proxy therefore sends that client no response at all in
this state.  The 502 is sent exactly when `connect_to_upstream` returns a
connection error, which requires a non-empty pool. -/
theorem connect_empty_pool_never_returns (canConnect : String → Bool)
    (pick : Nat → Nat) (fuel : Nat) :
    (connectToUpstream canConnect pick fuel []).outcome =
        ConnectOutcome.stillLooping ∧
      upstreamEstablishResponse
        (connectToUpstream canConnect pick fuel []).outcome = none ∧
      upstreamEstablishResponse ConnectOutcome.connErr = some 502 := by
  have h := connectLoop_empty_pool canConnect pick fuel 0
  have h' : connectToUpstream canConnect pick fuel [] =
      ⟨.stillLooping, [], [], fuel⟩ := by simpa [connectToUpstream] using h
  rw [h']
  exact ⟨rfl, rfl, rfl⟩

/-- **C2**: when the first randomly chosen upstream fails to connect, it is
erased from the pool at once; exactly one alternate is drawn from the fresh
post-erase snapshot and attempted; the failed address is absent from the
pool afterwards; and the run ends with that second attempt — its connection
on success, a surfaced connection error on failure, with no further
attempts, sleeps, or loop iterations. -/
theorem connect_failover_depth_one (canConnect : String → Bool)
    (pick : Nat → Nat) (fuel : Nat) (pool : List String) (idx₁ : Nat)
    (a₁ : String)
    (hnd : pool.Nodup) (h2 : 2 ≤ pool.length)
    (ha₁ : readUpstreamAddresses pool (pick 0) = some (idx₁, a₁))
    (hfail : canConnect a₁ = false) :
    ∃ idx₂ a₂,
      readUpstreamAddresses (deleteUpstreamAddress pool idx₁) (pick 1) =
          some (idx₂, a₂) ∧
        connectToUpstream canConnect pick (fuel + 1) pool =
          ⟨if canConnect a₂ then .conn a₂ else .connErr,
            deleteUpstreamAddress pool idx₁, [a₁, a₂], 0⟩ ∧
        a₁ ∉ deleteUpstreamAddress pool idx₁ := by
  have h0 : ¬pool.length = 0 := by omega
  have hlt : pick 0 % pool.length < pool.length := Nat.mod_lt _ (by omega)
  have ha₁' : idx₁ = pick 0 % pool.length ∧
      a₁ = pool.get ⟨pick 0 % pool.length, hlt⟩ := by
    unfold readUpstreamAddresses at ha₁
    rw [dif_neg h0] at ha₁
    simp only [Option.some.injEq, Prod.mk.injEq] at ha₁
    exact ⟨ha₁.1.symm, ha₁.2.symm⟩
  obtain ⟨hidx, ha⟩ := ha₁'
  subst hidx
  subst ha
  have hdel : deleteUpstreamAddress pool (pick 0 % pool.length) =
      pool.eraseIdx (pick 0 % pool.length) := by
    unfold deleteUpstreamAddress
    rw [if_pos hlt]
  have hlen₁ : (pool.eraseIdx (pick 0 % pool.length)).length =
      pool.length - 1 := by
    rw [List.length_eraseIdx]
    simp [hlt]
  have h1ne : ¬(pool.eraseIdx (pick 0 % pool.length)).length = 0 := by omega
  have hlt₂ : pick 1 % (pool.eraseIdx (pick 0 % pool.length)).length <
      (pool.eraseIdx (pick 0 % pool.length)).length := Nat.mod_lt _ (by omega)
  have hr2 : readUpstreamAddresses
      (deleteUpstreamAddress pool (pick 0 % pool.length)) (pick 1) =
      some (pick 1 % (pool.eraseIdx (pick 0 % pool.length)).length,
        (pool.eraseIdx (pick 0 % pool.length)).get
          ⟨pick 1 % (pool.eraseIdx (pick 0 % pool.length)).length, hlt₂⟩) := by
    rw [hdel]
    unfold readUpstreamAddresses
    rw [dif_neg h1ne]
  refine ⟨pick 1 % (pool.eraseIdx (pick 0 % pool.length)).length,
    (pool.eraseIdx (pick 0 % pool.length)).get
      ⟨pick 1 % (pool.eraseIdx (pick 0 % pool.length)).length, hlt₂⟩,
    hr2, ?_, ?_⟩
  · have ha₂mem : (pool.eraseIdx (pick 0 % pool.length)).get
        ⟨pick 1 % (pool.eraseIdx (pick 0 % pool.length)).length, hlt₂⟩ ∈
        pool.eraseIdx (pick 0 % pool.length) := List.get_mem _ _ _
    have haddeq : addUpstreamAddress
        (deleteUpstreamAddress pool (pick 0 % pool.length))
        ((pool.eraseIdx (pick 0 % pool.length)).get
          ⟨pick 1 % (pool.eraseIdx (pick 0 % pool.length)).length, hlt₂⟩) =
        deleteUpstreamAddress pool (pick 0 % pool.length) := by
      unfold addUpstreamAddress
      rw [if_pos (by rw [hdel]; exact ha₂mem)]
    unfold connectToUpstream
    simp only [connectLoop]
    rw [dif_neg h0]
    rw [if_neg (by simp only [List.get_eq_getElem] at hfail ⊢; simp [hfail])]
    rw [hr2]
    dsimp only
    cases hc : canConnect ((pool.eraseIdx (pick 0 % pool.length)).get
        ⟨pick 1 % (pool.eraseIdx (pick 0 % pool.length)).length, hlt₂⟩) with
    | false =>
      simp only [List.get_eq_getElem] at hc haddeq ⊢
      simp [hc, haddeq]
    | true =>
      simp only [List.get_eq_getElem] at hc haddeq ⊢
      simp [hc, haddeq]
  · rw [hdel]
    intro hmem
    rw [List.mem_eraseIdx_iff_getElem] at hmem
    obtain ⟨i, hi, hik, hv⟩ := hmem
    exact hik ((List.Nodup.getElem_inj_iff hnd).mp (by simpa using hv))

/-- Witness for C2: pool `["a", "b"]`, both unreachable, first draw index 0. -/
theorem connect_failover_depth_one_witness :
    ∃ idx₂ a₂,
      readUpstreamAddresses
          (deleteUpstreamAddress ["a", "b"] 0) ((fun _ => 0) 1) =
          some (idx₂, a₂) ∧
        connectToUpstream (fun _ => false) (fun _ => 0) (0 + 1) ["a", "b"] =
          ⟨if (fun _ => false : String → Bool) a₂ then .conn a₂ else .connErr,
            deleteUpstreamAddress ["a", "b"] 0, ["a", a₂], 0⟩ ∧
        "a" ∉ deleteUpstreamAddress ["a", "b"] 0 :=
  connect_failover_depth_one (fun _ => false) (fun _ => 0) 0 ["a", "b"] 0 "a"
    (by decide) (by decide) (by decide) (by decide)

/-- **C9**: `read_upstream_addresses` has no emptiness guard, so
`gen_range(0..0)` panics on an empty pool; in particular when the demoted
upstream was the only healthy one, the failover path's second snapshot is
empty and `connect_to_upstream` panics instead of backing off or returning
a connection error. -/
theorem connect_sole_upstream_failover_panics (canConnect : String → Bool)
    (pick : Nat → Nat) (fuel : Nat) (a : String) (draw : Nat)
    (hfail : canConnect a = false) :
    connectToUpstream canConnect pick (fuel + 1) [a] =
        ⟨.panicked, [], [a], 0⟩ ∧
      readUpstreamAddresses [] draw = none := by
  constructor
  · unfold connectToUpstream
    simp only [connectLoop]
    have h0 : ¬([a] : List String).length = 0 := by simp
    rw [dif_neg h0]
    have hget : ([a] : List String).get ⟨pick 0 % 1, Nat.mod_lt _ (by omega)⟩ = a := by
      simp
    rw [if_neg (by simp [hget, hfail])]
    have hdel : deleteUpstreamAddress [a] (pick 0 % ([a] : List String).length) =
        [] := by
      unfold deleteUpstreamAddress
      simp [Nat.mod_one]
    rw [hdel]
    have hr : readUpstreamAddresses ([] : List String) (pick 1) = none := rfl
    rw [hr]
    dsimp only
    simp [hget]
  · rfl

/-- Witness for C9: the sole configured-and-healthy upstream `"a"` is
unreachable. -/
theorem connect_sole_upstream_failover_panics_witness :
    connectToUpstream (fun _ => false) (fun _ => 0) (0 + 1) ["a"] =
        ⟨.panicked, [], ["a"], 0⟩ ∧
      readUpstreamAddresses [] 0 = none :=
  connect_sole_upstream_failover_panics (fun _ => false) (fun _ => 0) 0 "a" 0
    (by decide)

/-- **C3**: a health-check cycle that runs to completion replaces the pool
wholesale with exactly the configured addresses whose probe connected and
returned status 200 — independent of the previous pool contents.  Hence an
address healthy before the cycle whose probe did not return 200 is absent
immediately after the cycle, and one whose probe returned 200 is present
again immediately after the cycle. -/
theorem health_cycle_full_replace (configured oldPool : List String)
    (probe : String → ProbeOutcome)
    (hc : (healthCheckCycle configured probe oldPool).2 = true) :
    (healthCheckCycle configured probe oldPool).1 =
        (configured.filter fun a => decide (probe a = .response 200)) ∧
      (∀ a, probe a ≠ .response 200 →
        a ∉ (healthCheckCycle configured probe oldPool).1) ∧
      (∀ a ∈ configured, probe a = .response 200 →
        a ∈ (healthCheckCycle configured probe oldPool).1) := by
  simp only [healthCheckCycle] at hc ⊢
  have hfull := healthSweep_completed probe configured [] hc
  rw [List.nil_append] at hfull
  refine ⟨hfull, ?_, ?_⟩
  · intro a hne hmem
    rw [hfull] at hmem
    have := (List.mem_filter.mp hmem).2
    exact hne (by simpa using this)
  · intro a hmem h200
    rw [hfull]
    exact List.mem_filter.mpr ⟨hmem, by simp [h200]⟩

/-- Witness for C3: configured `["a", "b"]`, `a` answers 200, `b` is
unreachable, while the stale pool still holds `b`. -/
theorem health_cycle_full_replace_witness :
    (healthCheckCycle ["a", "b"]
        (fun x => if x = "a" then .response 200 else .connectFail) ["b"]).1 =
        (["a", "b"].filter fun x =>
          decide ((if x = "a" then ProbeOutcome.response 200
            else ProbeOutcome.connectFail) = .response 200)) ∧
      (∀ x, (if x = "a" then ProbeOutcome.response 200
          else ProbeOutcome.connectFail) ≠ .response 200 →
        x ∉ (healthCheckCycle ["a", "b"]
          (fun x => if x = "a" then .response 200 else .connectFail) ["b"]).1) ∧
      (∀ x ∈ ["a", "b"],
        (if x = "a" then ProbeOutcome.response 200
          else ProbeOutcome.connectFail) = .response 200 →
        x ∈ (healthCheckCycle ["a", "b"]
          (fun x => if x = "a" then .response 200 else .connectFail) ["b"]).1) :=
  health_cycle_full_replace ["a", "b"] ["b"]
    (fun x => if x = "a" then .response 200 else .connectFail) (by decide)

/-- **C4** (code evaluated at the failing input): a connection failure, a
parse failure, and a non-200 status are each recovered — the sweep completes
and the checker survives (`true`) — but a request-write failure makes
`health_check` return (`false`), terminating the checker loop and abandoning
the rest of the sweep (`u2` is not probed and the pool is left empty).  The
claim that no probe error is ever fatal to the checker loop is therefore
false for write failures. -/
theorem health_probe_write_failure_kills_checker :
    healthCheckCycle ["u1", "u2"]
        (fun a => if a = "u1" then .writeFail else .response 200) ["u2"] =
        ([], false) ∧
      healthCheckCycle ["u1", "u2"]
        (fun a => if a = "u1" then .connectFail else .response 200) ["u2"] =
        (["u2"], true) ∧
      healthCheckCycle ["u1", "u2"]
        (fun a => if a = "u1" then .parseFail else .response 200) ["u2"] =
        (["u2"], true) ∧
      healthCheckCycle ["u1", "u2"]
        (fun a => if a = "u1" then .response 500 else .response 200) ["u2"] =
        (["u2"], true) := by
  decide

/-- **C7** (counterexample): with health-check path `"/"` (the repository
default) and interval `0`, the checker task is started, an iteration sleeps
0 seconds, and the probe cycle still runs and rewrites the pool — here from
`["u"]` to `[]`.  Interval `0` does not disable periodic checking. -/
theorem interval_zero_still_probes_counterexample :
    healthCheckerStarted "/" = true ∧
      (healthCheckerIteration 0 ["u"] (fun _ => .connectFail) ["u"]).1 = 0 ∧
      (healthCheckerIteration 0 ["u"] (fun _ => .connectFail) ["u"]).2.1 = [] ∧
      (healthCheckerIteration 0 ["u"]
        (fun _ => .connectFail) ["u"]).2.1 ≠ ["u"] := by
  decide

/-- **C7** (amended): a health-check interval of 0 does not disable periodic
checking — an iteration with interval 0 merely sleeps 0 seconds, and the
probing and pool rewrite are the same whatever the interval.  What disables
the checker is an empty health-check path: the task is spawned iff the path
is non-empty. -/
theorem interval_zero_amended (interval : Nat) (path : String)
    (configured oldPool : List String) (probe : String → ProbeOutcome) :
    (healthCheckerStarted path = false ↔ path = "") ∧
      (healthCheckerIteration 0 configured probe oldPool).1 = 0 ∧
      (healthCheckerIteration interval configured probe oldPool).2 =
        (healthCheckerIteration 0 configured probe oldPool).2 := by
  refine ⟨?_, rfl, rfl⟩
  simp [healthCheckerStarted, String.isEmpty_iff]

/-- **C8**: every pool mutation preserves `healthy ⊆ configured`: the
failover demotion only erases, the defensive re-add only inserts an address
drawn from a snapshot already inside `configured`, the health-check cycle
rebuilds the pool from `configured` members only, and a whole
`connect_to_upstream` run leaves the pool inside `configured`. -/
theorem healthy_subset_configured_invariant (configured pool snap : List String)
    (probe : String → ProbeOutcome) (idx : Nat) (a : String)
    (canConnect : String → Bool) (pick : Nat → Nat) (fuel : Nat)
    (hpool : pool ⊆ configured) (hsnap : snap ⊆ configured) (ha : a ∈ snap) :
    deleteUpstreamAddress pool idx ⊆ configured ∧
      addUpstreamAddress pool a ⊆ configured ∧
      (healthCheckCycle configured probe pool).1 ⊆ configured ∧
      (connectToUpstream canConnect pick fuel pool).pool ⊆ configured := by
  refine ⟨?_, ?_, ?_, ?_⟩
  · unfold deleteUpstreamAddress
    by_cases hi : idx < pool.length
    · rw [if_pos hi]
      exact fun x hx => hpool (List.eraseIdx_subset pool idx hx)
    · rw [if_neg hi]
      exact hpool
  · unfold addUpstreamAddress
    by_cases hm : a ∈ pool
    · rw [if_pos hm]
      exact hpool
    · rw [if_neg hm]
      intro x hx
      rcases List.mem_append.mp hx with h | h
      · exact hpool h
      · have hxa : x = a := by simpa using h
        subst hxa
        exact hsnap ha
  · simp only [healthCheckCycle]
    intro x hx
    rcases healthSweep_subset probe configured [] x hx with h | h
    · exact absurd h (List.not_mem_nil x)
    · exact h
  · exact fun x hx =>
      hpool (connectLoop_pool_subset canConnect pick fuel pool 0 hx)

/-- Witness for C8 at configured `["a", "b"]`, pool `["a"]`, snapshot
`["b"]`. -/
theorem healthy_subset_configured_invariant_witness :
    deleteUpstreamAddress ["a"] 0 ⊆ ["a", "b"] ∧
      addUpstreamAddress ["a"] "b" ⊆ ["a", "b"] ∧
      (healthCheckCycle ["a", "b"] (fun _ => .connectFail) ["a"]).1 ⊆
        ["a", "b"] ∧
      (connectToUpstream (fun _ => false) (fun _ => 0) 1 ["a"]).pool ⊆
        ["a", "b"] :=
  healthy_subset_configured_invariant ["a", "b"] ["a"] ["b"]
    (fun _ => .connectFail) 0 "b" (fun _ => false) (fun _ => 0) 1
    (by decide) (by decide) (by decide)

/-- **C10**: the request-error dispatch of `handle_connection` can never
answer 503: the catch-all arm does map `ConnectionError` to 503
(SERVICE_UNAVAILABLE), but every `ConnectionError` is already caught by the
earlier silent-return arm, so that mapping is unreachable and no error
produces a 503 response. -/
theorem request_error_dispatch_never_503 (e : RequestError) (m : String) :
    handleReadError e ≠ .respondAndContinue 503 ∧
      requestErrorStatus (.connectionError m) = 503 ∧
      handleReadError (.connectionError m) = .closeSilently := by
  refine ⟨?_, rfl, rfl⟩
  cases e with
  | incompleteRequest n =>
    cases n with
    | zero => simp [handleReadError]
    | succ k => simp [handleReadError, requestErrorStatus]
  | malformedRequest msg => simp [handleReadError, requestErrorStatus]
  | invalidContentLength => simp [handleReadError, requestErrorStatus]
  | contentLengthMismatch => simp [handleReadError, requestErrorStatus]
  | requestBodyTooLarge => simp [handleReadError, requestErrorStatus]
  | connectionError msg => simp [handleReadError]

end Balancebeam
